import Mathlib

/-!
# Verification of the `DataRegistry` orchestration facade

Shallow embedding of `src/packages/dataregistry/src/dataregistry.ts`.

The facade composes two collaborators that live outside the given source
(`./converters`, `./datasets`, `./resolvers`, `./viewers`); those are modelled
from the spec (section 6 of `spec.md`), while every facade method
(`registerURL`, `hasConversions`, `possibleMimeTypesForURL`, `viewersForURL`,
`viewURL`, `convertByURL`) is translated directly from the TypeScript source.

Conventions of the embedding:
* URLs, mime types and viewer labels are strings.
* The mutable dataset store is the `store` field of `RegState`; each facade
  method is a function `RegState α → Result × RegState α`, mirroring a method
  on an object whose only mutable field is the store (the `converters` field
  of the class is `readonly` and holds the converter edges).
* JavaScript `Promise` results are plain values; a JavaScript `undefined`
  result is `Option.none`.
* The lazy `AsyncIterable` returned by `converters.convert` is a finite list;
  laziness only matters for the interleaving of the publishes, which is
  captured by the loop `convertLoop` processing one element at a time.
-/

namespace DataRegistry

abbrev URLString := String
abbrev MimeType := String

/-- A dataset: a URL, a mime type and a payload (`Dataset<T>` in the source). -/
structure Dataset (α : Type) where
  url : URLString
  mimeType : MimeType
  data : α
deriving DecidableEq, Repr

/-- Modelled from the spec: a converter capability, an edge of the converter
graph mapping a source mime type to a target mime type (section 3 of the
spec: "a capability mapping one or more source mime types to a target mime
type"; a single source suffices for the reachability contract in section 6). -/
structure Converter where
  src : MimeType
  tgt : MimeType
deriving DecidableEq, Repr

/-- A value that JavaScript code can put in the seed set handed to
`listTargetMimeTypes`.  The declared contract (spec section 6) seeds with mime
type strings, but line 39 of `dataregistry.ts` passes the array
`[resolveMimeType]`, whose single element is the *unapplied* resolver function
object.  Under JavaScript `Set`/`===` semantics a function object is equal to
no string, so the two kinds of seed values are distinct constructors here. -/
inductive MimeVal
  | str (m : MimeType)
  | resolveMimeTypeFn
deriving DecidableEq, Repr

/-- Modelled from the spec: one expansion step of the converter graph's
reachability computation — keep the current seed set and add the target of
every registered converter whose source mime type is already in the set. -/
def convStep (edges : List Converter) (s : Finset MimeVal) : Finset MimeVal :=
  s ∪ ((edges.filter (fun e => MimeVal.str e.src ∈ s)).map
        (fun e => MimeVal.str e.tgt)).toFinset

/-- Modelled from the spec: `converters.listTargetMimeTypes(url, seeds)` —
"Reachability closure computation over registered converters, seeded by the
given mime types; pure, no mutation" (spec section 6).  Iterating the step
function once per registered converter reaches the closure.  The `url`
argument is kept from the source signature; the closure itself depends only
on the registered converters and the seeds. -/
def listTargetMimeTypes (edges : List Converter) (url : URLString)
    (seeds : Finset MimeVal) : Finset MimeVal :=
  (convStep edges)^[edges.length] seeds

/-- Modelled from the spec: the dataset store's contents, the list of
published datasets in publication order (`publish` appends). -/
abbrev Store (α : Type) := List (Dataset α)

/-- Modelled from the spec: `data.contains(dataset)` — the store's identity
predicate, membership among the published datasets. -/
def containsDS [DecidableEq α] (s : Store α) (d : Dataset α) : Bool := d ∈ s

/-- Modelled from the spec: `data.publish(dataset)` — register the dataset. -/
def publishDS (s : Store α) (d : Dataset α) : Store α := s ++ [d]

/-- Modelled from the spec: `data.filterByURL(url)` — the datasets currently
registered for a URL, used as the conversion-chain seed. -/
def filterByURL (s : Store α) (u : URLString) : List (Dataset α) :=
  s.filter (fun d => d.url = u)

/-- Modelled from the spec: `data.mimeTypesForURL(url)` — the set of mime
types currently registered for a URL. -/
def mimeTypesForURL [DecidableEq α] (s : Store α) (u : URLString) : Finset MimeType :=
  ((s.filter (fun d => d.url = u)).map Dataset.mimeType).toFinset

/-- The state a `DataRegistry` instance closes over: its (readonly) converter
registry and the mutable dataset store. -/
structure RegState (α : Type) where
  converters : List Converter
  store : Store α
deriving DecidableEq, Repr

/-- Modelled from the spec: the viewer pseudo-mime-type prefix used by the
reversible viewer encoding (spec section 6, "Viewer encoding"). -/
def viewerPrefix : String := "application/x.jupyterlab.viewer+label:"

/-- Modelled from the spec: `createViewerMimeType(label)` — reversible
encoding of a viewer label into the pseudo mime-type namespace. -/
def createViewerMimeType (label : String) : MimeType := viewerPrefix ++ label

/-- Modelled from the spec: `extractViewerLabel(mimeType)` — inverse of
`createViewerMimeType`; `none` if the mime type is not viewer-encoded. -/
def extractViewerLabel (m : MimeType) : Option String :=
  if viewerPrefix.data.isPrefixOf m.data then
    some (String.mk (m.data.drop viewerPrefix.data.length))
  else none

/-- `extractViewerLabel` lifted to the seed-value type: a JavaScript function
object is not a viewer-encoded string, so it decodes to `none`. -/
def extractViewerLabelV (v : MimeVal) : Option String :=
  match v with
  | .str m => extractViewerLabel m
  | .resolveMimeTypeFn => none

section Facade

variable {α β : Type} [DecidableEq α]

/-- `registerURL(url)` from the source: resolve the URL to a dataset; if the
store already contains it return `null` (here `none`), otherwise publish it
and return the disposable handle (here `some ()`).  `resolveDataSet` is the
external resolver (spec section 6: pure function URL → Dataset). -/
def registerURL (resolveDataSet : URLString → Dataset α) (url : URLString)
    (σ : RegState α) : Option Unit × RegState α :=
  let dataset := resolveDataSet url
  if containsDS σ.store dataset then (none, σ)
  else (some (), { σ with store := publishDS σ.store dataset })

/-- `hasConversions(url)` from the source, line 39:
`this.converters.listTargetMimeTypes(url, [resolveMimeType]).size > 1`.
Note that the seed array holds the *function* `resolveMimeType`, not its
application to `url`, which is why the seed here is the function-object
constructor `MimeVal.resolveMimeTypeFn`. -/
def hasConversions (url : URLString) (σ : RegState α) : Bool × RegState α :=
  (decide (1 < (listTargetMimeTypes σ.converters url {MimeVal.resolveMimeTypeFn}).card), σ)

/-- `possibleMimeTypesForURL(url)` from the source: the converter graph's
closure seeded with the mime types currently registered for the URL. -/
def possibleMimeTypesForURL (url : URLString) (σ : RegState α) :
    Finset MimeVal × RegState α :=
  (listTargetMimeTypes σ.converters url
      ((mimeTypesForURL σ.store url).image MimeVal.str), σ)

/-- `viewersForURL(url)` from the source: decode each reachable mime type as
a viewer label, discard the `null`s, collect the distinct labels
(`new Set([...].map(extractViewerLabel).filter(label => label !== null))`). -/
def viewersForURL (url : URLString) (σ : RegState α) : Finset String × RegState α :=
  ((possibleMimeTypesForURL url σ).1.biUnion
      (fun v => (extractViewerLabelV v).toFinset), σ)

/-- One iteration of the `for await` body of `convertByURL`: if the store does
not contain the dataset, publish it. -/
def convertStepStore (s : Store α) (d : Dataset α) : Store α :=
  if containsDS s d then s else publishDS s d

/-- The `for await` loop of `convertByURL`: consume the sequence one element
at a time, remembering the last element seen (`finalDataSet`) and publishing
each element the store does not contain before moving to the next. -/
def convertLoop : Option (Dataset α) → Store α → List (Dataset α) →
    Option (Dataset α) × Store α
  | acc, s, [] => (acc, s)
  | _, s, d :: rest => convertLoop (some d) (convertStepStore s d) rest

/-- The list of datasets `convertByURL` publishes, in publication order:
the elements of the sequence not already present in the store at their turn. -/
def convertTrace (s : Store α) : List (Dataset α) → List (Dataset α)
  | [] => []
  | d :: rest =>
      (if containsDS s d then [] else [d]) ++ convertTrace (convertStepStore s d) rest

/-- `convertByURL(url, targetMimeType)` from the source: obtain the conversion
sequence from the converter graph (`convert` is the collaborator of spec
section 6, here a parameter), consume it with the publishing loop and return
the last dataset seen.  The JavaScript `finalDataSet!` non-null assertion is
an `Option`: `none` models the `undefined` result of an empty sequence. -/
def convertByURL (convert : List (Dataset α) → MimeType → List (Dataset α))
    (url : URLString) (targetMimeType : MimeType) (σ : RegState α) :
    Option (Dataset α) × RegState α :=
  let seq := convert (filterByURL σ.store url) targetMimeType
  let r := convertLoop none σ.store seq
  (r.1, { σ with store := r.2 })

/-- `viewURL(url, label)` from the source: encode the label, convert to the
encoded pseudo mime type, then invoke the resulting dataset's payload
accessor (`await viewer.data()`), modelled by the external interpretation
`invoke` of the payload.  `none` models the `TypeError` the JavaScript code
would hit calling `.data()` on an `undefined` conversion result. -/
def viewURL (invoke : α → β) (convert : List (Dataset α) → MimeType → List (Dataset α))
    (url : URLString) (label : String) (σ : RegState α) : Option β × RegState α :=
  let r := convertByURL convert url (createViewerMimeType label) σ
  (r.1.map (fun d => invoke d.data), r.2)

end Facade

/-! ### Concrete instances

A small concrete configuration, used to evaluate the definitions on explicit
inputs: the scenario of spec section 8 — URL `csv://data/a` resolving to
`text/csv`, with a converter `text/csv → application/json` registered. -/

/-- The dataset `csv://data/a` resolves to. -/
def dsA : Dataset Nat := ⟨"csv://data/a", "text/csv", 0⟩

/-- The converted `application/json` dataset for the same URL. -/
def dsB : Dataset Nat := ⟨"csv://data/a", "application/json", 1⟩

/-- One registered converter `text/csv → application/json`. -/
def demoEdges : List Converter := [⟨"text/csv", "application/json"⟩]

/-- A registry state whose store already holds `dsA`. -/
def demoState : RegState Nat := ⟨demoEdges, [dsA]⟩

/-- A registry state with an empty store. -/
def demoEmptyState : RegState Nat := ⟨demoEdges, []⟩

/-- A converter-graph `convert` collaborator whose sequence is always the
single step `[dsB]`. -/
def demoConvert : List (Dataset Nat) → MimeType → List (Dataset Nat) :=
  fun _ _ => [dsB]

/-- A converter-graph `convert` collaborator whose sequence is always empty. -/
def emptyConvert : List (Dataset Nat) → MimeType → List (Dataset Nat) :=
  fun _ _ => []

/-- A resolver mapping every URL to a fresh `text/csv` dataset for it. -/
def demoResolveDataSet : URLString → Dataset Nat := fun u => ⟨u, "text/csv", 0⟩

/-- A resolver mapping every URL to the mime type `text/csv`. -/
def demoResolveMimeType : URLString → MimeType := fun _ => "text/csv"

/-! ### Helper lemmas about the reachability closure -/

theorem convStep_subset (edges : List Converter) (s : Finset MimeVal) :
    s ⊆ convStep edges s :=
  Finset.subset_union_left

theorem subset_listTargetMimeTypes (edges : List Converter) (url : URLString)
    (seeds : Finset MimeVal) : seeds ⊆ listTargetMimeTypes edges url seeds := by
  unfold listTargetMimeTypes
  generalize edges.length = n
  induction n with
  | zero => exact fun v hv => hv
  | succ k ih =>
      rw [Function.iterate_succ_apply']
      exact fun v hv => convStep_subset edges _ (ih hv)

theorem convStep_fn_singleton (edges : List Converter) :
    convStep edges {MimeVal.resolveMimeTypeFn} = {MimeVal.resolveMimeTypeFn} := by
  apply Finset.ext
  intro v
  simp only [convStep, Finset.mem_union, List.mem_toFinset, List.mem_map,
    List.mem_filter, Finset.mem_singleton]
  constructor
  · rintro (h | ⟨e, ⟨_, hmem⟩, rfl⟩)
    · exact h
    · exact absurd (of_decide_eq_true hmem) (by simp)
  · exact fun h => Or.inl h

theorem listTargetMimeTypes_fn_seed (edges : List Converter) (url : URLString) :
    listTargetMimeTypes edges url {MimeVal.resolveMimeTypeFn}
      = {MimeVal.resolveMimeTypeFn} :=
  Function.iterate_fixed (convStep_fn_singleton edges) edges.length

theorem convStep_empty (edges : List Converter) : convStep edges ∅ = ∅ := by
  apply Finset.ext
  intro v
  simp only [convStep, Finset.mem_union, List.mem_toFinset, List.mem_map,
    List.mem_filter, Finset.not_mem_empty]
  constructor
  · rintro (h | ⟨e, ⟨_, hmem⟩, rfl⟩)
    · exact h
    · exact (of_decide_eq_true hmem).elim
  · exact fun h => h.elim

theorem listTargetMimeTypes_empty_seed (edges : List Converter) (url : URLString) :
    listTargetMimeTypes edges url ∅ = ∅ :=
  Function.iterate_fixed (convStep_empty edges) edges.length

/-! ### Helper lemmas about the conversion loop -/

section LoopLemmas

variable {α : Type} [DecidableEq α]

theorem convertLoop_snd (seq : List (Dataset α)) :
    ∀ (acc : Option (Dataset α)) (s : Store α),
      (convertLoop acc s seq).2 = seq.foldl convertStepStore s := by
  induction seq with
  | nil => intro acc s; rfl
  | cons d rest ih => intro acc s; exact ih (some d) (convertStepStore s d)

theorem convertLoop_fst (seq : List (Dataset α)) :
    ∀ (acc : Option (Dataset α)) (s : Store α),
      (convertLoop acc s seq).1 = seq.foldl (fun _ d => some d) acc := by
  induction seq with
  | nil => intro acc s; rfl
  | cons d rest ih => intro acc s; exact ih (some d) (convertStepStore s d)

omit [DecidableEq α] in
theorem foldl_some_getLast (seq : List (Dataset α)) :
    ∀ (acc : Option (Dataset α)),
      seq.foldl (fun _ d => some d) acc = seq.getLast?.or acc := by
  induction seq with
  | nil => intro acc; rfl
  | cons d rest ih =>
      intro acc
      show rest.foldl (fun _ d => some d) (some d) = _
      rw [ih (some d)]
      cases rest with
      | nil => rfl
      | cons e t =>
          rw [List.getLast?_cons_cons]
          rw [List.getLast?_eq_getLast (e :: t) (by simp)]
          rfl

theorem convertByURL_fst (convert : List (Dataset α) → MimeType → List (Dataset α))
    (url : URLString) (t : MimeType) (σ : RegState α) :
    (convertByURL convert url t σ).1
      = (convert (filterByURL σ.store url) t).getLast? := by
  show (convertLoop none σ.store _).1 = _
  rw [convertLoop_fst, foldl_some_getLast]
  cases (convert (filterByURL σ.store url) t).getLast? <;> rfl

theorem convertByURL_store (convert : List (Dataset α) → MimeType → List (Dataset α))
    (url : URLString) (t : MimeType) (σ : RegState α) :
    (convertByURL convert url t σ).2.store
      = (convert (filterByURL σ.store url) t).foldl convertStepStore σ.store := by
  show (convertLoop none σ.store _).2 = _
  rw [convertLoop_snd]

theorem convertByURL_converters (convert : List (Dataset α) → MimeType → List (Dataset α))
    (url : URLString) (t : MimeType) (σ : RegState α) :
    (convertByURL convert url t σ).2.converters = σ.converters := rfl

theorem foldl_convertStepStore_eq_append (seq : List (Dataset α)) :
    ∀ s : Store α, seq.foldl convertStepStore s = s ++ convertTrace s seq := by
  induction seq with
  | nil => intro s; simp [convertTrace]
  | cons d rest ih =>
      intro s
      show rest.foldl convertStepStore (convertStepStore s d) = _
      rw [ih (convertStepStore s d)]
      cases hc : containsDS s d <;>
        simp [convertTrace, hc, convertStepStore, publishDS]

theorem convertTrace_sublist (seq : List (Dataset α)) :
    ∀ s : Store α, (convertTrace s seq).Sublist seq := by
  induction seq with
  | nil => intro s; simp [convertTrace]
  | cons d rest ih =>
      intro s
      cases hc : containsDS s d
      · simpa [convertTrace, hc] using List.Sublist.cons₂ d (ih (convertStepStore s d))
      · simpa [convertTrace, hc] using List.Sublist.cons d (ih (convertStepStore s d))

theorem convertStepStore_of_not_contains {s : Store α} {d : Dataset α}
    (h : containsDS s d = false) : convertStepStore s d = publishDS s d := by
  unfold convertStepStore
  rw [h]
  simp

theorem mem_convertStepStore_self (s : Store α) (d : Dataset α) :
    d ∈ convertStepStore s d := by
  by_cases h : d ∈ s
  · simp [convertStepStore, containsDS, h]
  · simp [convertStepStore, containsDS, h, publishDS]

theorem foldl_take_succ (seq : List (Dataset α)) (s : Store α) (i : ℕ)
    (h : i < seq.length) :
    (seq.take (i + 1)).foldl convertStepStore s
      = convertStepStore ((seq.take i).foldl convertStepStore s) (seq.get ⟨i, h⟩) := by
  rw [List.take_succ, List.foldl_append, List.getElem?_eq_getElem h]
  simp [List.get_eq_getElem]

end LoopLemmas

/-! ### Helper lemmas about the viewer encoding -/

theorem extractViewerLabel_createViewerMimeType (l : String) :
    extractViewerLabel (createViewerMimeType l) = some l := by
  have hp : viewerPrefix.data.isPrefixOf (viewerPrefix.data ++ l.data) = true := by
    rw [List.isPrefixOf_iff_prefix]
    exact List.prefix_append _ _
  simp [extractViewerLabel, createViewerMimeType, String.data_append, hp,
    List.drop_left]

theorem createViewerMimeType_of_extract {m : MimeType} {l : String}
    (h : extractViewerLabel m = some l) : createViewerMimeType l = m := by
  unfold extractViewerLabel at h
  split at h
  case isFalse => exact absurd h (by simp)
  case isTrue hc =>
      obtain ⟨t, ht⟩ := List.isPrefixOf_iff_prefix.mp hc
      have hdrop : m.data.drop viewerPrefix.data.length = t := by
        rw [← ht, List.drop_left]
      have hl : l = String.mk t := by
        have := Option.some.inj h
        rw [hdrop] at this
        exact this.symm
      apply String.ext
      rw [createViewerMimeType, String.data_append, hl, ← ht]

/-- A registry state with one registered converter from `text/csv` straight to
the viewer-encoded pseudo mime type of the label `Table`. -/
def demoViewerState : RegState Nat :=
  ⟨[⟨"text/csv", "application/x.jupyterlab.viewer+label:Table"⟩], [dsA]⟩

/-! ### Claims -/

/-- C1: refuted as stated (code bug).  Line 39 of the source seeds
`listTargetMimeTypes` with the array `[resolveMimeType]`, whose element is the
*unapplied* resolver function object, not the mime type `resolveMimeType(url)`.
A function object matches no converter's source mime type, so the closure
stays the singleton seed and `hasConversions` returns `false` for every URL
and every registry state — in particular in the spec scenario, where the
closure seeded with `resolveMimeType(u) = text/csv` has two elements and the
claim demands `true`. -/
theorem hasConversions_seeds_unapplied_function :
    (∀ (url : URLString) (σ : RegState Nat), (hasConversions url σ).1 = false)
    ∧ (hasConversions "csv://data/a" demoEmptyState).1 = false
    ∧ 1 < (listTargetMimeTypes demoEdges "csv://data/a"
            {MimeVal.str (demoResolveMimeType "csv://data/a")}).card := by
  refine ⟨?_, by decide, by decide⟩
  intro url σ
  simp [hasConversions, listTargetMimeTypes_fn_seed]

/-- C2 counterexample: the converter sequence `[dsB]` terminates without ever
yielding a dataset of the requested target mime type `text/html`, yet
`convertByURL` completes normally and returns `dsB` — it does not fail with an
`UnreachableTarget` (or any) error. -/
theorem convertByURL_wrong_target_completes_normally :
    (convertByURL demoConvert "csv://data/a" "text/html" demoState).1 = some dsB
    ∧ (dsB.mimeType == "text/html") = false :=
  ⟨by decide, by decide⟩

/-- C2 (amended): when the converter graph's sequence terminates without ever
yielding a dataset of the target mime type, `convertByURL` completes normally
anyway, resolving with the last element yielded (`none`, i.e. JavaScript
`undefined`, when there was none); the facade raises no `UnreachableTarget`
error, and `viewURL` receives the same non-error value. -/
theorem convertByURL_unreached_target_completes {α β : Type} [DecidableEq α]
    (invoke : α → β) (convert : List (Dataset α) → MimeType → List (Dataset α))
    (url : URLString) (t : MimeType) (σ : RegState α)
    (h : ∀ d ∈ convert (filterByURL σ.store url) t, d.mimeType ≠ t) :
    (convertByURL convert url t σ).1 = (convert (filterByURL σ.store url) t).getLast?
    ∧ ∀ label : String, t = createViewerMimeType label →
        (viewURL invoke convert url label σ).1
          = ((convert (filterByURL σ.store url) t).getLast?).map
              (fun d => invoke d.data) := by
  refine ⟨convertByURL_fst convert url t σ, ?_⟩
  intro label hl
  subst hl
  show ((convertByURL convert url (createViewerMimeType label) σ).1).map _ = _
  rw [convertByURL_fst]

/-- C2 witness: the amended theorem at the concrete configuration. -/
theorem convertByURL_unreached_target_completes_witness :
    (convertByURL demoConvert "csv://data/a" "text/html" demoState).1
      = (demoConvert (filterByURL demoState.store "csv://data/a") "text/html").getLast? :=
  (convertByURL_unreached_target_completes (fun n : Nat => n) demoConvert
    "csv://data/a" "text/html" demoState (by decide)).1

/-- C3: within one `convertByURL` call the store grows exactly by the trace of
the sequence elements not already present, appended in production order
(`convertTrace` is a sublist of the sequence); consuming the sequence is a
left fold, so element `i` is handled — published when absent, confirmed
present otherwise — before element `i + 1` is requested, and after step `i`
the element is in the intermediate store. -/
theorem convertByURL_publishes_in_order {α : Type} [DecidableEq α]
    (convert : List (Dataset α) → MimeType → List (Dataset α))
    (url : URLString) (t : MimeType) (σ : RegState α)
    (seq : List (Dataset α)) (hseq : seq = convert (filterByURL σ.store url) t) :
    (convertByURL convert url t σ).2.store = σ.store ++ convertTrace σ.store seq
    ∧ (convertTrace σ.store seq).Sublist seq
    ∧ (∀ i (h : i < seq.length),
        (seq.take (i + 1)).foldl convertStepStore σ.store
          = convertStepStore ((seq.take i).foldl convertStepStore σ.store)
              (seq.get ⟨i, h⟩))
    ∧ (∀ i (h : i < seq.length),
        containsDS ((seq.take i).foldl convertStepStore σ.store) (seq.get ⟨i, h⟩)
            = false →
          (seq.take (i + 1)).foldl convertStepStore σ.store
            = publishDS ((seq.take i).foldl convertStepStore σ.store)
                (seq.get ⟨i, h⟩))
    ∧ (∀ i (h : i < seq.length),
        seq.get ⟨i, h⟩ ∈ (seq.take (i + 1)).foldl convertStepStore σ.store) := by
  subst hseq
  refine ⟨?_, convertTrace_sublist _ _, ?_, ?_, ?_⟩
  · rw [convertByURL_store, foldl_convertStepStore_eq_append]
  · intro i h
    exact foldl_take_succ _ _ i h
  · intro i h hc
    rw [foldl_take_succ _ _ i h]
    exact convertStepStore_of_not_contains hc
  · intro i h
    rw [foldl_take_succ _ _ i h]
    exact mem_convertStepStore_self _ _

/-- C3 witness: at the concrete configuration, the single produced dataset is
in the store as soon as its own step has been processed. -/
theorem convertByURL_publishes_in_order_witness :
    dsB ∈ (([dsB] : List (Dataset Nat)).take (0 + 1)).foldl convertStepStore
        demoState.store := by
  have h := convertByURL_publishes_in_order demoConvert "csv://data/a"
    "application/json" demoState [dsB] (by decide)
  exact h.2.2.2.2 0 (by decide)

/-- C4: `registerURL` resolves the URL to one dataset; with an equivalent
dataset already in the store it returns the `null` sentinel and changes
nothing, otherwise it publishes exactly that dataset and returns the handle;
a second call after a successful first returns the sentinel, leaves the state
unchanged and the store holds exactly one dataset for the URL; the converter
registry is untouched (and `registerURL` takes no conversion capability at
all). -/
theorem registerURL_idempotent {α : Type} [DecidableEq α]
    (resolveDataSet : URLString → Dataset α) (u : URLString) (σ : RegState α)
    (hres : (resolveDataSet u).url = u)
    (hnew : ∀ d ∈ σ.store, d.url ≠ u) :
    (registerURL resolveDataSet u σ).1 = some ()
    ∧ (registerURL resolveDataSet u (registerURL resolveDataSet u σ).2).1 = none
    ∧ (registerURL resolveDataSet u (registerURL resolveDataSet u σ).2).2
        = (registerURL resolveDataSet u σ).2
    ∧ ((registerURL resolveDataSet u σ).2).store.filter (fun d => d.url = u)
        = [resolveDataSet u]
    ∧ ((registerURL resolveDataSet u σ).2).converters = σ.converters
    ∧ (∀ σ' : RegState α, containsDS σ'.store (resolveDataSet u) = true →
        registerURL resolveDataSet u σ' = (none, σ')) := by
  have hmem : resolveDataSet u ∉ σ.store := fun hm => hnew _ hm hres
  have hc : containsDS σ.store (resolveDataSet u) = false := by
    simp [containsDS, hmem]
  have h1 : registerURL resolveDataSet u σ
      = (some (), { σ with store := publishDS σ.store (resolveDataSet u) }) := by
    simp [registerURL, hc]
  have hc2 : containsDS (publishDS σ.store (resolveDataSet u)) (resolveDataSet u)
      = true := by
    simp [containsDS, publishDS]
  have h2 : registerURL resolveDataSet u
        ({ σ with store := publishDS σ.store (resolveDataSet u) })
      = (none, { σ with store := publishDS σ.store (resolveDataSet u) }) := by
    simp [registerURL, hc2]
  have e1 : σ.store.filter (fun d => decide (d.url = u)) = [] := by
    rw [List.filter_eq_nil_iff]
    intro d hd
    simp [hnew d hd]
  refine ⟨by rw [h1], by rw [h1, h2], by rw [h1, h2], ?_, by rw [h1], ?_⟩
  · rw [h1]
    show (publishDS σ.store (resolveDataSet u)).filter (fun d => decide (d.url = u))
        = [resolveDataSet u]
    rw [publishDS, List.filter_append, e1]
    simp [hres]
  · intro σ' hcs
    simp [registerURL, hcs]

/-- C4 witness: the theorem at the concrete configuration. -/
theorem registerURL_idempotent_witness :
    (registerURL demoResolveDataSet "csv://data/a" demoEmptyState).1 = some () :=
  (registerURL_idempotent demoResolveDataSet "csv://data/a" demoEmptyState
    (by decide) (by decide)).1

/-- C5: `convertByURL` returns the last dataset of the converter graph's
sequence; in particular, when the sequence consists solely of the one
(already existing) dataset of the target mime type — the zero-conversion-step
case of the collaborator contract — that dataset is returned. -/
theorem convertByURL_returns_last {α : Type} [DecidableEq α]
    (convert : List (Dataset α) → MimeType → List (Dataset α))
    (url : URLString) (t : MimeType) (σ : RegState α)
    (seq : List (Dataset α)) (hseq : seq = convert (filterByURL σ.store url) t) :
    (∀ h : seq ≠ [],
        (convertByURL convert url t σ).1 = some (seq.getLast h))
    ∧ (∀ d : Dataset α, seq = [d] → (convertByURL convert url t σ).1 = some d) := by
  have hfst : (convertByURL convert url t σ).1 = seq.getLast? := by
    rw [convertByURL_fst, hseq]
  constructor
  · intro h
    rw [hfst, List.getLast?_eq_getLast seq h]
  · intro d hd
    rw [hfst, hd]
    rfl

/-- C5 witness: the theorem at the concrete one-element sequence. -/
theorem convertByURL_returns_last_witness :
    (convertByURL demoConvert "csv://data/a" "application/json" demoState).1
      = some dsB :=
  (convertByURL_returns_last demoConvert "csv://data/a" "application/json"
    demoState [dsB] (by decide)).2 dsB (by decide)

/-- C6: `hasConversions` and `possibleMimeTypesForURL` are pure queries: they
return the registry state (store and converter registry) unchanged, perform no
registration or conversion, and are total on any URL; on a URL for which
nothing is registered `possibleMimeTypesForURL` yields the empty set and
`hasConversions` a plain boolean. -/
theorem queries_pure_and_safe {α : Type} [DecidableEq α]
    (url : URLString) (σ : RegState α) :
    (hasConversions url σ).2 = σ
    ∧ (possibleMimeTypesForURL url σ).2 = σ
    ∧ ((∀ d ∈ σ.store, d.url ≠ url) →
        (possibleMimeTypesForURL url σ).1 = ∅
        ∧ (hasConversions url σ).1 = false) := by
  refine ⟨rfl, rfl, ?_⟩
  intro hnew
  constructor
  · have e1 : σ.store.filter (fun d => decide (d.url = url)) = [] := by
      rw [List.filter_eq_nil_iff]
      intro d hd
      simp [hnew d hd]
    have hmt : mimeTypesForURL σ.store url = ∅ := by
      simp [mimeTypesForURL, e1]
    simp [possibleMimeTypesForURL, hmt, listTargetMimeTypes_empty_seed]
  · simp [hasConversions, listTargetMimeTypes_fn_seed]

/-- C6 witness: the theorem at a URL no dataset was ever registered for. -/
theorem queries_pure_and_safe_witness :
    (possibleMimeTypesForURL "unknown://x" demoEmptyState).1 = ∅ :=
  ((queries_pure_and_safe "unknown://x" demoEmptyState).2.2 (by decide)).1

/-- C7: `possibleMimeTypesForURL` is exactly the converter graph's closure
seeded with the mime types currently registered in the store for the URL, and
that closure contains every seed — every already-registered mime type is
reachable with zero steps. -/
theorem possibleMimeTypes_seeded_from_store {α : Type} [DecidableEq α]
    (url : URLString) (σ : RegState α) :
    (possibleMimeTypesForURL url σ).1
      = listTargetMimeTypes σ.converters url
          ((mimeTypesForURL σ.store url).image MimeVal.str)
    ∧ ∀ m ∈ mimeTypesForURL σ.store url,
        MimeVal.str m ∈ (possibleMimeTypesForURL url σ).1 := by
  refine ⟨rfl, ?_⟩
  intro m hm
  exact subset_listTargetMimeTypes σ.converters url _
    (Finset.mem_image_of_mem MimeVal.str hm)

/-- C7 witness: the already-registered `text/csv` is among the reachable mime
types at the concrete configuration. -/
theorem possibleMimeTypes_seeded_from_store_witness :
    MimeVal.str "text/csv" ∈ (possibleMimeTypesForURL "csv://data/a" demoState).1 :=
  (possibleMimeTypes_seeded_from_store "csv://data/a" demoState).2 "text/csv"
    (by decide)

/-- C8: `viewersForURL` mutates nothing and its value is exactly the set of
labels decoded by `extractViewerLabel` from the reachable mime types, the
`null` results discarded; every returned label's viewer encoding is itself one
of the reachable mime types. -/
theorem viewersForURL_characterization {α : Type} [DecidableEq α]
    (url : URLString) (σ : RegState α) :
    (viewersForURL url σ).2 = σ
    ∧ ∀ l : String,
        (l ∈ (viewersForURL url σ).1 ↔
          ∃ v ∈ (possibleMimeTypesForURL url σ).1, extractViewerLabelV v = some l)
        ∧ (l ∈ (viewersForURL url σ).1 →
          MimeVal.str (createViewerMimeType l)
            ∈ (possibleMimeTypesForURL url σ).1) := by
  refine ⟨rfl, ?_⟩
  intro l
  have hmem : l ∈ (viewersForURL url σ).1 ↔
      ∃ v ∈ (possibleMimeTypesForURL url σ).1, extractViewerLabelV v = some l := by
    simp [viewersForURL, Finset.mem_biUnion, Option.mem_toFinset, Option.mem_def]
  refine ⟨hmem, ?_⟩
  intro hl
  obtain ⟨v, hv, hev⟩ := hmem.mp hl
  cases v with
  | str m =>
      have he : createViewerMimeType l = m := createViewerMimeType_of_extract hev
      rw [he]
      exact hv
  | resolveMimeTypeFn => exact absurd hev (by simp [extractViewerLabelV])

/-- C8 witness: with a converter producing the viewer pseudo mime type for
`Table`, the label `Table` is a viewer and its encoding is reachable. -/
theorem viewersForURL_characterization_witness :
    MimeVal.str (createViewerMimeType "Table")
      ∈ (possibleMimeTypesForURL "csv://data/a" demoViewerState).1 :=
  ((viewersForURL_characterization "csv://data/a" demoViewerState).2 "Table").2
    (by decide)

/-- C9: `viewURL` encodes the label with `createViewerMimeType`, obtains the
final dataset through `convertByURL` on that pseudo mime type — ending in
exactly that call's state, hence with all of its publishing side effects —
and completes with the result of invoking the dataset's payload accessor. -/
theorem viewURL_composition {α β : Type} [DecidableEq α] (invoke : α → β)
    (convert : List (Dataset α) → MimeType → List (Dataset α))
    (url : URLString) (label : String) (σ : RegState α) :
    (viewURL invoke convert url label σ).2
      = (convertByURL convert url (createViewerMimeType label) σ).2
    ∧ ∀ d : Dataset α,
        (convertByURL convert url (createViewerMimeType label) σ).1 = some d →
          (viewURL invoke convert url label σ).1 = some (invoke d.data) := by
  refine ⟨rfl, ?_⟩
  intro d hd
  show ((convertByURL convert url (createViewerMimeType label) σ).1).map _ = _
  rw [hd]
  rfl

/-- C9 witness: viewing `csv://data/a` with label `Table` at the concrete
configuration invokes the payload accessor of the converted dataset. -/
theorem viewURL_composition_witness :
    (viewURL (fun n : Nat => n) demoConvert "csv://data/a" "Table" demoState).1
      = some 1 :=
  (viewURL_composition (fun n : Nat => n) demoConvert "csv://data/a" "Table"
    demoState).2 dsB (by decide)

/-- C10: if the converter graph's sequence yields zero elements,
`convertByURL` completes successfully with `none` (JavaScript `undefined`):
the `finalDataSet!` non-null assertion is backed by no runtime check, so the
no-element branch reaches the public interface with neither a dataset nor an
exception, and the store is left unchanged. -/
theorem convertByURL_empty_sequence {α : Type} [DecidableEq α]
    (convert : List (Dataset α) → MimeType → List (Dataset α))
    (url : URLString) (t : MimeType) (σ : RegState α)
    (h : convert (filterByURL σ.store url) t = []) :
    convertByURL convert url t σ = (none, σ) := by
  have hl : convertLoop (α := α) none σ.store (convert (filterByURL σ.store url) t)
      = (none, σ.store) := by
    rw [h]
    simp [convertLoop]
  show ((convertLoop none σ.store (convert (filterByURL σ.store url) t)).1,
      { σ with store :=
          (convertLoop none σ.store (convert (filterByURL σ.store url) t)).2 })
    = (none, σ)
  rw [hl]

/-- C10 witness: the theorem at the concrete empty-sequence collaborator. -/
theorem convertByURL_empty_sequence_witness :
    convertByURL emptyConvert "csv://data/a" "text/html" demoState
      = (none, demoState) :=
  convertByURL_empty_sequence emptyConvert "csv://data/a" "text/html" demoState
    (by decide)

end DataRegistry
